import Mathlib

/-!
# Verification of the grocery-index price-change derivation engine

Shallow embedding of the derivation core of `src/backend/src/routes/statcan.ts`
(`src/unnamed/part_005`): the service function `calculateAndStorePriceChanges`
(month-over-month change, streak detection, idempotent upserts), the
`calculate-all` route handler, and the year-over-year enrichment performed by
the `all-price-changes` route handler.

Modelling conventions:
* JavaScript numbers are modelled by `JSVal`: an exact rational for every
  finite value, plus `nan`, `posInf`, `negInf`.  IEEE rounding is abstracted
  away (the claims under scrutiny concern presence/absence, signs, zero
  divisors and NaN propagation, never rounding), and `-0` is identified with
  `0`.
* A stored `VALUE` (Mongoose type `Mixed`) is modelled by its numeric
  coercion `Number(VALUE)`: a non-numeric / unparsable stored value is
  modelled as `JSVal.nan`.  Both uses in the source — `Number(current.VALUE)`
  in the change computation and the raw subtraction `VALUE - VALUE` in the
  streak loop — coerce the value numerically, so this identification is
  faithful.  For the year-over-year code path, which tests
  `typeof yearAgo.VALUE === 'number'` on the *raw* value, raw values are
  modelled separately by `MixedVal`.
* `new Date()` timestamps are modelled by a `Nat` clock value `now` supplied
  once per recompute run.
* The MongoDB collections `price_changes` / `price_streaks` are modelled by a
  `Store` of total functions keyed by `(product, geo)`; `findOneAndUpdate`
  with `upsert: true` and `deleteOne` become function updates.
-/

/-- A JavaScript number: finite values are exact rationals; `nan`, `posInf`
and `negInf` model `NaN`, `Infinity` and `-Infinity`. -/
inductive JSVal where
  | num (q : ℚ)
  | nan
  | posInf
  | negInf
deriving DecidableEq, Repr

/-- JavaScript subtraction `a - b` on numbers: `NaN` is absorbing; infinities
follow IEEE rules (`Infinity - Infinity = NaN`). -/
def jsSub : JSVal → JSVal → JSVal
  | .nan, _ => .nan
  | _, .nan => .nan
  | .num a, .num b => .num (a - b)
  | .num _, .posInf => .negInf
  | .num _, .negInf => .posInf
  | .posInf, .num _ => .posInf
  | .negInf, .num _ => .negInf
  | .posInf, .negInf => .posInf
  | .negInf, .posInf => .negInf
  | .posInf, .posInf => .nan
  | .negInf, .negInf => .nan

/-- JavaScript division `a / b`: division of a nonzero finite value by `0`
yields a signed infinity, `0 / 0` yields `NaN` (`-0` is identified with
`0`, so the divisor zero is treated as `+0`). -/
def jsDiv : JSVal → JSVal → JSVal
  | .nan, _ => .nan
  | _, .nan => .nan
  | .num a, .num b =>
      if b = 0 then (if a = 0 then .nan else if 0 < a then .posInf else .negInf)
      else .num (a / b)
  | .posInf, .num b => if 0 ≤ b then .posInf else .negInf
  | .negInf, .num b => if 0 ≤ b then .negInf else .posInf
  | .num _, .posInf => .num 0
  | .num _, .negInf => .num 0
  | .posInf, .posInf => .nan
  | .posInf, .negInf => .nan
  | .negInf, .posInf => .nan
  | .negInf, .negInf => .nan

/-- JavaScript multiplication `a * b`: `NaN` is absorbing; `0 * Infinity`
is `NaN`. -/
def jsMul : JSVal → JSVal → JSVal
  | .nan, _ => .nan
  | _, .nan => .nan
  | .num a, .num b => .num (a * b)
  | .posInf, .num b => if b = 0 then .nan else if 0 < b then .posInf else .negInf
  | .negInf, .num b => if b = 0 then .nan else if 0 < b then .negInf else .posInf
  | .num a, .posInf => if a = 0 then .nan else if 0 < a then .posInf else .negInf
  | .num a, .negInf => if a = 0 then .nan else if 0 < a then .negInf else .posInf
  | .posInf, .posInf => .posInf
  | .negInf, .negInf => .posInf
  | .posInf, .negInf => .negInf
  | .negInf, .posInf => .negInf

/-- JavaScript comparison `a < b`: any comparison involving `NaN` is false. -/
def jsLt : JSVal → JSVal → Bool
  | .nan, _ => false
  | _, .nan => false
  | .num a, .num b => a < b
  | .negInf, .negInf => false
  | .negInf, _ => true
  | _, .negInf => false
  | .posInf, .posInf => false
  | _, .posInf => true
  | .posInf, _ => false

/-- JavaScript comparison `a > b`. -/
def jsGt (a b : JSVal) : Bool := jsLt b a

/-- JavaScript `isNaN` on an already-coerced number. -/
def jsIsNaN : JSVal → Bool
  | .nan => true
  | _ => false

/-- One observation of the StatCan series for a fixed `(GEO, Products)`
pair, as returned by `StatCan.find({GEO, Products}).sort({REF_DATE: 1})`:
the reference date (`YYYY-MM`) and the numeric coercion of the stored
value. -/
structure Obs where
  REF_DATE : String
  VALUE : JSVal
deriving DecidableEq, Repr

/-- The record upserted into the `price_changes` collection
(`PriceChangeSchema`, `src/unnamed/part_005` lines 152–166).  Every field is
always written; in particular `changePercent` is an unconditional `JSVal`,
mirroring line 149 of the source which performs the division with no zero
check. -/
structure PriceChangeRec where
  product : String
  geo : String
  currentPrice : JSVal
  previousPrice : JSVal
  change : JSVal
  changePercent : JSVal
  currentDate : String
  previousDate : String
  lastUpdated : Nat
deriving DecidableEq, Repr

/-- Outcome of the change computation for one product: the two `continue`
branches of the loop body (lines 129–145) or a record to upsert. -/
inductive ChangeResult where
  | insufficientData
  | invalidValue
  | ok (r : PriceChangeRec)
deriving DecidableEq, Repr

/-- Default observation used only to totalise list indexing; every access
in the embedding is guarded by the length checks the source performs. -/
def obsDefault : Obs := ⟨"", JSVal.nan⟩

/-- The change computation of `calculateAndStorePriceChanges`
(`src/unnamed/part_005` lines 128–166): require at least two points, take
the last two elements of the date-ascending series as current/previous,
reject a `NaN` coercion of either, and otherwise build the record with
`change = currentPrice - previousPrice` and
`changePercent = (change / previousPrice) * 100` (no zero-divisor branch). -/
def computeChange (product geo : String) (priceData : List Obs) (now : Nat) :
    ChangeResult :=
  if priceData.length < 2 then .insufficientData
  else
    let current := priceData.getD (priceData.length - 1) obsDefault
    let previous := priceData.getD (priceData.length - 2) obsDefault
    let currentPrice := current.VALUE
    let previousPrice := previous.VALUE
    if jsIsNaN currentPrice || jsIsNaN previousPrice then .invalidValue
    else
      let change := jsSub currentPrice previousPrice
      let changePercent := jsMul (jsDiv change previousPrice) (.num 100)
      .ok ⟨product, geo, currentPrice, previousPrice, change, changePercent,
           current.REF_DATE, previous.REF_DATE, now⟩

/-- Streak direction, the `streakType` strings `'increase'` / `'decrease'`
of the source. -/
inductive StreakType where
  | increase
  | decrease
deriving DecidableEq, Repr

/-- The mutable state of the streak loop (`src/unnamed/part_005` lines
169–171): `currentStreak`, `streakType` (`null` before the first
qualifying step) and `streakStartIdx`. -/
structure StreakState where
  currentStreak : Nat
  streakType : Option StreakType
  streakStartIdx : Nat
deriving DecidableEq, Repr

/-- The expression `priceData[i].VALUE - priceData[i-1].VALUE` of the streak
loop, at loop index `i + 1` (so the subtraction is between positions `i + 1`
and `i`). -/
def diffAt (vals : List JSVal) (i : Nat) : JSVal :=
  jsSub (vals.getD (i + 1) JSVal.nan) (vals.getD i JSVal.nan)

/-- The backward streak loop (`src/unnamed/part_005` lines 172–193):
`for (let i = priceData.length - 1; i > 0; i--)` with
`diff = priceData[i].VALUE - priceData[i-1].VALUE`; a positive diff extends
or starts an increase streak, a negative diff a decrease streak, any other
diff (zero or `NaN`) breaks, and a sign reversal breaks.  The first argument
of the recursion is the loop variable `i`. -/
def streakLoop (vals : List JSVal) : Nat → StreakState → StreakState
  | 0, st => st
  | i + 1, st =>
    let diff := diffAt vals i
    if jsGt diff (.num 0) then
      if st.streakType = some .increase ∨ st.streakType = none then
        streakLoop vals i ⟨st.currentStreak + 1, some .increase, i⟩
      else st
    else if jsLt diff (.num 0) then
      if st.streakType = some .decrease ∨ st.streakType = none then
        streakLoop vals i ⟨st.currentStreak + 1, some .decrease, i⟩
      else st
    else st

/-- The record upserted into the `price_streaks` collection
(`PriceStreakSchema`, upsert at `src/unnamed/part_005` lines 195–206). -/
structure PriceStreakRec where
  product : String
  geo : String
  streakLength : Nat
  streakType : StreakType
  data : List Obs
  lastUpdated : Nat
deriving DecidableEq, Repr

/-- The streak computation of `calculateAndStorePriceChanges`
(`src/unnamed/part_005` lines 168–210): run `streakLoop` from
`priceData.length - 1` with initial state
`{currentStreak := 1, streakType := null, streakStartIdx := length - 1}`;
if `currentStreak > 1 && streakType` upsert a record whose `data` is
`priceData.slice(streakStartIdx)`, otherwise (`none` here) the caller
deletes any stored streak. -/
def computeStreak (product geo : String) (priceData : List Obs) (now : Nat) :
    Option PriceStreakRec :=
  let st := streakLoop (priceData.map Obs.VALUE) (priceData.length - 1)
      ⟨1, none, priceData.length - 1⟩
  if st.currentStreak > 1 then
    st.streakType.map (fun t =>
      ⟨product, geo, st.currentStreak, t, priceData.drop st.streakStartIdx, now⟩)
  else none

/-- The result store: the `price_changes` and `price_streaks` collections,
each a total function from the unique key `(product, geo)` to the stored
record, if any. -/
structure Store where
  changes : String × String → Option PriceChangeRec
  streaks : String × String → Option PriceStreakRec

/-- A store with no records. -/
def emptyStore : Store := ⟨fun _ => none, fun _ => none⟩

/-- `PriceChange.findOneAndUpdate({product, geo}, ..., {upsert: true})`. -/
def upsertChange (s : Store) (k : String × String) (r : PriceChangeRec) : Store :=
  ⟨fun k' => if k' = k then some r else s.changes k', s.streaks⟩

/-- `PriceStreak.findOneAndUpdate({product, geo}, ..., {upsert: true})`. -/
def upsertStreak (s : Store) (k : String × String) (r : PriceStreakRec) : Store :=
  ⟨s.changes, fun k' => if k' = k then some r else s.streaks k'⟩

/-- `PriceStreak.deleteOne({product, geo})`. -/
def deleteStreak (s : Store) (k : String × String) : Store :=
  ⟨s.changes, fun k' => if k' = k then none else s.streaks k'⟩

/-- The body of the per-product loop of `calculateAndStorePriceChanges`
(`src/unnamed/part_005` lines 120–221): on `InsufficientData` or
`InvalidValue` skip (`continue`) without touching the store; otherwise
upsert the change record, then upsert the streak record or delete any stale
one, and count the product as processed (the returned `Bool`). -/
def processProduct (geo : String) (now : Nat) (s : Store)
    (product : String) (priceData : List Obs) : Store × Bool :=
  match computeChange product geo priceData now with
  | .insufficientData => (s, false)
  | .invalidValue => (s, false)
  | .ok r =>
    let s1 := upsertChange s (product, geo) r
    let s2 := match computeStreak product geo priceData now with
      | some sr => upsertStreak s1 (product, geo) sr
      | none => deleteStreak s1 (product, geo)
    (s2, true)

/-- The service function `calculateAndStorePriceChanges` of
`src/unnamed/part_005` (lines 109–230): process every product of the region
in order, returning the final store and `processedCount`.  `inputs` pairs
each distinct product with its date-ascending series, as produced by the
`StatCan.distinct` / `StatCan.find().sort()` accessor calls. -/
def calculateAndStorePriceChanges (geo : String) (now : Nat) :
    List (String × List Obs) → Store → Store × Nat
  | [], s => (s, 0)
  | (product, priceData) :: rest, s =>
    let step := processProduct geo now s product priceData
    let restRes := calculateAndStorePriceChanges geo now rest step.1
    (restRes.1, (if step.2 then 1 else 0) + restRes.2)

/-- One entry of the `results` array built by the `calculate-all` route
handler (`src/unnamed/part_005` lines 354–363). -/
structure RegionResult where
  geo : String
  processedCount : Nat
  success : Bool
  error : Option String
deriving DecidableEq, Repr

/-- The `calculate-all` route handler loop (`src/unnamed/part_005` lines
342–372): drive the per-region recompute once per known region; a region
whose recompute throws (modelled by `Except.error`) is recorded with
`processedCount: 0, success: false` and its error message, and processing
continues with the remaining regions.  Returns
`(totalProcessed, results)`. -/
def calculateAll (run : String → Except String Nat) :
    List String → Nat × List RegionResult
  | [] => (0, [])
  | geo :: rest =>
    let head : Nat × RegionResult :=
      match run geo with
      | .ok n => (n, ⟨geo, n, true, none⟩)
      | .error e => (0, ⟨geo, 0, false, some e⟩)
    let restRes := calculateAll run rest
    (head.1 + restRes.1, head.2 :: restRes.2)

/-- The month arithmetic of the `all-price-changes` handler on a parsed
period `(y, m)` with `1 ≤ m ≤ 12`:
`d = new Date(y, m-1, 1); d.setMonth(d.getMonth() - 12)` re-read as a
year/month pair.  JavaScript normalises the month index
`y * 12 + (m - 1) - 12` by euclidean division.  The `Date` is modelled
under a UTC clock, on which `toISOString().slice(0, 7)` reads back exactly
this normalised pair. -/
def yearAgoYM (y m : Nat) : Nat × Nat :=
  let t := y * 12 + (m - 1) - 12
  (t / 12, t % 12 + 1)

/-- Render a `(year, month)` pair as the `YYYY-MM` slice of
`toISOString()` (month zero-padded to two digits; years of at most four
digits render unpadded). -/
def formatPeriod (y m : Nat) : String :=
  toString y ++ "-" ++ (if m < 10 then "0" ++ toString m else toString m)

/-- Split a character list at every `'-'`, the behaviour of
`String.splitOn "-"` on the character data. -/
def splitOnDash : List Char → List (List Char)
  | [] => [[]]
  | c :: rest =>
    let r := splitOnDash rest
    if c = '-' then [] :: r
    else
      match r with
      | g :: gs => (c :: g) :: gs
      | [] => [[c]]

/-- Read a non-empty all-digit character list as a decimal `Nat`, the
behaviour of `String.toNat?` (structural so that concrete instances reduce
in the kernel). -/
def parseDigitsAux : List Char → Nat → Option Nat
  | [], acc => some acc
  | c :: rest, acc =>
    if c.isDigit then parseDigitsAux rest (acc * 10 + (c.toNat - '0'.toNat))
    else none

/-- `String.toNat?` on a character list. -/
def parseDigits : List Char → Option Nat
  | [] => none
  | cs => parseDigitsAux cs 0

/-- The `yearAgoDate` computation of the `all-price-changes` route handler
(`src/unnamed/part_005` lines 584–588):
`new Date(currentDate + '-01'); d.setMonth(d.getMonth() - 12);
d.toISOString().slice(0, 7)`, modelled under a UTC clock.  The `YYYY-MM`
input is parsed into year and month; an unparsable `currentDate` is mapped
to `""` (the JS code would raise there; no stored record carries such a
date and no claim exercises that path). -/
def yearAgoDateStr (s : String) : String :=
  match splitOnDash s.data with
  | [ys, ms] =>
    match parseDigits ys, parseDigits ms with
    | some y, some m => formatPeriod (yearAgoYM y m).1 (yearAgoYM y m).2
    | _, _ => ""
  | _ => ""

/-- A raw stored `VALUE` as seen by the `typeof yearAgo.VALUE === 'number'`
test: either a number-typed JS value (possibly `NaN`/infinite) or a value of
any other type. -/
inductive MixedVal where
  | mnum (v : JSVal)
  | nonNumber
deriving DecidableEq, Repr

/-- The per-product object returned by the `all-price-changes` route
handler (`src/unnamed/part_005` lines 595–607): the stored change record
enriched with the three year-ago fields, each `null`able. -/
structure EnrichedRec where
  product : String
  geo : String
  currentPrice : JSVal
  previousPrice : JSVal
  change : JSVal
  changePercent : JSVal
  currentDate : String
  previousDate : String
  yearAgoPrice : Option JSVal
  yearAgoChange : Option JSVal
  yearAgoPercent : Option JSVal
deriving DecidableEq, Repr

/-- The year-over-year enrichment of one stored change record by the
`all-price-changes` route handler (`src/unnamed/part_005` lines 577–608).
`lookup` is `StatCan.findOne({GEO, Products, REF_DATE})` for this item's
product and region, keyed by `REF_DATE`, returning the raw stored `VALUE`.
Mirrors the source exactly: `yearAgoPrice`/`yearAgoPercent` start `null`
and are assigned only when `currentDate` is truthy and the lookup returns a
number-typed value; `yearAgoPercent` additionally stays `null` when
`yearAgoPrice === 0`; `yearAgoChange` is

`yearAgoPrice !== null ? (item.currentPrice ?? 0) - yearAgoPrice : null`.

`item.currentPrice ?? 0` is `item.currentPrice` here since the recompute
writes every field of the stored record. -/
def enrichYoY (item : PriceChangeRec) (lookup : String → Option MixedVal) :
    EnrichedRec :=
  let pr : Option JSVal × Option JSVal :=
    if item.currentDate = "" then (none, none)
    else
      match lookup (yearAgoDateStr item.currentDate) with
      | some (.mnum v) =>
        (some v,
         if v = .num 0 then none
         else some (jsMul (jsDiv (jsSub item.currentPrice v) v) (.num 100)))
      | _ => (none, none)
  { product := item.product
    geo := item.geo
    currentPrice := item.currentPrice
    previousPrice := item.previousPrice
    change := item.change
    changePercent := item.changePercent
    currentDate := item.currentDate
    previousDate := item.previousDate
    yearAgoPrice := pr.1
    yearAgoChange := pr.1.map (fun v => jsSub item.currentPrice v)
    yearAgoPercent := pr.2 }

/-- Whether a diff value continues a streak of direction `t`: the branch
condition the loop tests at each step (`diff > 0` for an increase run,
`diff < 0` for a decrease run). -/
def contDiff (t : StreakType) (d : JSVal) : Bool :=
  match t with
  | .increase => jsGt d (.num 0)
  | .decrease => jsLt d (.num 0)

/-- Number of consecutive qualifying steps of direction `t` the streak loop
takes walking down from loop index `i`: it stops at the first diff that is
not strictly of sign `t` (zero, `NaN` or a reversal). -/
def runLen (vals : List JSVal) (t : StreakType) : Nat → Nat
  | 0 => 0
  | i + 1 => if contDiff t (diffAt vals i) then runLen vals t i + 1 else 0

/-- A stored change record with its `lastUpdated` timestamp cleared, for
comparing two recompute runs up to wall-clock time. -/
def stripChangeTime (r : PriceChangeRec) : PriceChangeRec :=
  { r with lastUpdated := 0 }

/-- A stored streak record with its `lastUpdated` timestamp cleared. -/
def stripStreakTime (r : PriceStreakRec) : PriceStreakRec :=
  { r with lastUpdated := 0 }

/-- The last change-record write a recompute run performs at key `k`, if
any: a later product in the list overrides an earlier one with the same
key. -/
def changeWriteOf (geo : String) (now : Nat) (k : String × String) :
    List (String × List Obs) → Option PriceChangeRec
  | [] => none
  | (product, priceData) :: rest =>
    match changeWriteOf geo now k rest with
    | some r => some r
    | none =>
      match computeChange product geo priceData now with
      | .ok r => if k = (product, geo) then some r else none
      | _ => none

/-- The last streak-store effect a recompute run performs at key `k`, if
any: `some (some r)` for an upsert, `some none` for a delete, `none` when
the key is never touched. -/
def streakWriteOf (geo : String) (now : Nat) (k : String × String) :
    List (String × List Obs) → Option (Option PriceStreakRec)
  | [] => none
  | (product, priceData) :: rest =>
    match streakWriteOf geo now k rest with
    | some v => some v
    | none =>
      match computeChange product geo priceData now with
      | .ok _ =>
        if k = (product, geo) then some (computeStreak product geo priceData now)
        else none
      | _ => none

/-- Whether a product of the region input is processed (its change
computation succeeds), the condition under which the loop increments
`processedCount`. -/
def isOkChange (geo : String) (now : Nat) (pr : String × List Obs) : Bool :=
  match computeChange pr.1 geo pr.2 now with
  | .ok _ => true
  | _ => false

/-- Scenario A of the spec: `[(2023-01,2.00), (2023-02,2.10), (2023-03,2.05)]`. -/
def scenarioA : List Obs :=
  [⟨"2023-01", .num 2⟩, ⟨"2023-02", .num 2.10⟩, ⟨"2023-03", .num 2.05⟩]

/-- Scenario B of the spec:
`[(2023-01,2.00), (2023-02,2.10), (2023-03,2.20), (2023-04,2.30)]`. -/
def scenarioB : List Obs :=
  [⟨"2023-01", .num 2⟩, ⟨"2023-02", .num 2.10⟩, ⟨"2023-03", .num 2.20⟩,
   ⟨"2023-04", .num 2.30⟩]

/-- A two-point series whose change computation succeeds. -/
def goodSeries : List Obs := [⟨"2023-01", .num 1⟩, ⟨"2023-02", .num 2⟩]

/-- A one-point series: insufficient data. -/
def badSeries : List Obs := [⟨"2023-01", .num 1⟩]

/-- A one-product region input used for the idempotence instances. -/
def demoInputs : List (String × List Obs) := [("a", goodSeries)]

/-- Scenario E of the spec: 100 products of which 3 have insufficient
data. -/
def scenarioEInputs : List (String × List Obs) :=
  ((List.range 97).map (fun i => ("p" ++ toString i, goodSeries))) ++
    [("q0", badSeries), ("q1", badSeries), ("q2", badSeries)]

/-- A stored change record used as the enrichment input of the concrete
year-over-year instances. -/
def yoyItem : PriceChangeRec :=
  ⟨"Eggs", "Canada", .num 3, .num 2, .num 1, .num 50, "2024-01", "2023-12", 0⟩

/-- Helper: a strictly positive diff is not strictly negative. -/
theorem jsGtZero_not_ltZero (d : JSVal) (h : jsGt d (.num 0) = true) :
    jsLt d (.num 0) = false := by
  cases d <;> simp_all [jsGt, jsLt]
  linarith

/-- Helper: a strictly negative diff is not strictly positive. -/
theorem jsLtZero_not_gtZero (d : JSVal) (h : jsLt d (.num 0) = true) :
    jsGt d (.num 0) = false := by
  cases d <;> simp_all [jsGt, jsLt]
  linarith

/-- Helper: once the loop state carries direction `t`, the walk adds exactly
`runLen` to the counter and moves the start index to the last qualifying
position. -/
theorem streakLoop_locked (vals : List JSVal) (t : StreakType) :
    ∀ (i c s : Nat),
      streakLoop vals i ⟨c, some t, s⟩ =
        ⟨c + runLen vals t i, some t,
         if runLen vals t i = 0 then s else i - runLen vals t i⟩ := by
  intro i
  induction i with
  | zero => intro c s; simp [streakLoop, runLen]
  | succ i ih =>
    intro c s
    rw [streakLoop]
    rcases hgt : jsGt (diffAt vals i) (.num 0) with _ | _
    · rcases hlt : jsLt (diffAt vals i) (.num 0) with _ | _
      · cases t <;> simp [hgt, hlt, runLen, contDiff]
      · cases t with
        | increase => simp [hgt, hlt, runLen, contDiff, jsLtZero_not_gtZero _ hlt]
        | decrease =>
          simp only [hgt, hlt, runLen, contDiff, if_true, if_false, Bool.false_eq_true,
            ite_false, ite_true, ih]
          have hr : runLen vals .decrease i + 1 ≠ 0 := Nat.succ_ne_zero _
          simp [hr, hlt]
          constructor
          · omega
          · rcases h0 : runLen vals .decrease i with _ | r <;> simp [h0]
    · cases t with
      | increase =>
        simp only [hgt, runLen, contDiff, ite_false, ite_true, ih]
        have hr : runLen vals .increase i + 1 ≠ 0 := Nat.succ_ne_zero _
        simp [hr, hgt]
        constructor
        · omega
        · rcases h0 : runLen vals .increase i with _ | r <;> simp [h0]
      | decrease => simp [hgt, runLen, contDiff, jsGtZero_not_ltZero _ hgt]

/-- Helper: the change computation depends on the clock only through the
`lastUpdated` field of a successful record. -/
theorem computeChange_now (p g : String) (pd : List Obs) (now now2 : Nat) :
    computeChange p g pd now2 =
      match computeChange p g pd now with
      | .ok r => .ok { r with lastUpdated := now2 }
      | .insufficientData => .insufficientData
      | .invalidValue => .invalidValue := by
  by_cases h1 : pd.length < 2
  · simp only [computeChange]
    rw [if_pos h1, if_pos h1]
  · by_cases h2 : (jsIsNaN (pd.getD (pd.length - 1) obsDefault).VALUE
        || jsIsNaN (pd.getD (pd.length - 2) obsDefault).VALUE) = true
    · simp only [computeChange]
      rw [if_neg h1, if_neg h1, if_pos h2, if_pos h2]
    · simp only [computeChange]
      rw [if_neg h1, if_neg h1, if_neg h2, if_neg h2]

/-- Helper: the streak computation depends on the clock only through the
`lastUpdated` field of a stored record. -/
theorem computeStreak_now (p g : String) (pd : List Obs) (now now2 : Nat) :
    computeStreak p g pd now2 =
      (computeStreak p g pd now).map (fun r => { r with lastUpdated := now2 }) := by
  rw [computeStreak, computeStreak]
  by_cases h : (streakLoop (pd.map Obs.VALUE) (pd.length - 1)
      ⟨1, none, pd.length - 1⟩).currentStreak > 1
  · rcases (streakLoop (pd.map Obs.VALUE) (pd.length - 1)
        ⟨1, none, pd.length - 1⟩).streakType with _ | t <;> simp [h]
  · simp [h]

/-- Helper: a streak upsert leaves the change collection untouched. -/
theorem changes_upsertStreak (s : Store) (k : String × String) (r : PriceStreakRec) :
    (upsertStreak s k r).changes = s.changes := rfl

/-- Helper: a streak delete leaves the change collection untouched. -/
theorem changes_deleteStreak (s : Store) (k : String × String) :
    (deleteStreak s k).changes = s.changes := rfl

/-- Helper: reading the change collection after an upsert. -/
theorem changes_upsertChange (s : Store) (k k2 : String × String) (r : PriceChangeRec) :
    (upsertChange s k r).changes k2 = if k2 = k then some r else s.changes k2 := rfl

/-- Helper: a change upsert leaves the streak collection untouched. -/
theorem streaks_upsertChange (s : Store) (k : String × String) (r : PriceChangeRec) :
    (upsertChange s k r).streaks = s.streaks := rfl

/-- Helper: reading the streak collection after an upsert. -/
theorem streaks_upsertStreak (s : Store) (k k2 : String × String) (r : PriceStreakRec) :
    (upsertStreak s k r).streaks k2 = if k2 = k then some r else s.streaks k2 := rfl

/-- Helper: reading the streak collection after a delete. -/
theorem streaks_deleteStreak (s : Store) (k k2 : String × String) :
    (deleteStreak s k).streaks k2 = if k2 = k then none else s.streaks k2 := rfl

/-- Helper: the change collection after a recompute run holds, at each key,
the run's last write there or the prior content. -/
theorem calc_changes_char (geo : String) (now : Nat) (k : String × String) :
    ∀ (inputs : List (String × List Obs)) (s : Store),
      ((calculateAndStorePriceChanges geo now inputs s).1).changes k =
        match changeWriteOf geo now k inputs with
        | some r => some r
        | none => s.changes k := by
  intro inputs
  induction inputs with
  | nil => intro s; rfl
  | cons pr rest ih =>
    intro s
    obtain ⟨product, priceData⟩ := pr
    have hstep : ((calculateAndStorePriceChanges geo now
          ((product, priceData) :: rest) s).1).changes k
        = ((calculateAndStorePriceChanges geo now rest
            (processProduct geo now s product priceData).1).1).changes k := rfl
    rw [hstep, ih, changeWriteOf]
    rcases hw : changeWriteOf geo now k rest with _ | r
    · rcases hc : computeChange product geo priceData now with _ | _ | r2
      · simp [processProduct, hc]
      · simp [processProduct, hc]
      · simp only [processProduct, hc]
        rcases hs : computeStreak product geo priceData now with _ | sr <;>
          simp [changes_deleteStreak, changes_upsertStreak, changes_upsertChange] <;>
          by_cases hk : k = (product, geo) <;> simp [hk]
    · rfl

/-- Helper: the streak collection after a recompute run holds, at each key,
the run's last effect there (upsert or delete) or the prior content. -/
theorem calc_streaks_char (geo : String) (now : Nat) (k : String × String) :
    ∀ (inputs : List (String × List Obs)) (s : Store),
      ((calculateAndStorePriceChanges geo now inputs s).1).streaks k =
        match streakWriteOf geo now k inputs with
        | some v => v
        | none => s.streaks k := by
  intro inputs
  induction inputs with
  | nil => intro s; rfl
  | cons pr rest ih =>
    intro s
    obtain ⟨product, priceData⟩ := pr
    have hstep : ((calculateAndStorePriceChanges geo now
          ((product, priceData) :: rest) s).1).streaks k
        = ((calculateAndStorePriceChanges geo now rest
            (processProduct geo now s product priceData).1).1).streaks k := rfl
    rw [hstep, ih, streakWriteOf]
    rcases hw : streakWriteOf geo now k rest with _ | v
    · rcases hc : computeChange product geo priceData now with _ | _ | r2
      · simp [processProduct, hc]
      · simp [processProduct, hc]
      · simp only [processProduct, hc]
        rcases hs : computeStreak product geo priceData now with _ | sr <;>
          simp [hs, streaks_deleteStreak, streaks_upsertStreak, streaks_upsertChange] <;>
          by_cases hk : k = (product, geo) <;> simp [hk]
    · rfl

/-- Helper: the run's last change write at a key differs across two clock
values only in its `lastUpdated` field. -/
theorem changeWriteOf_strip (geo : String) (k : String × String) (now now2 : Nat) :
    ∀ inputs : List (String × List Obs),
      Option.map stripChangeTime (changeWriteOf geo now2 k inputs) =
        Option.map stripChangeTime (changeWriteOf geo now k inputs) := by
  intro inputs
  induction inputs with
  | nil => rfl
  | cons pr rest ih =>
    obtain ⟨product, priceData⟩ := pr
    rw [changeWriteOf, changeWriteOf]
    rcases hw : changeWriteOf geo now k rest with _ | r
    · rw [hw] at ih
      have hw2 : changeWriteOf geo now2 k rest = none := by
        rcases hx : changeWriteOf geo now2 k rest with _ | r2
        · rfl
        · rw [hx] at ih; simp at ih
      rw [hw2]
      rw [computeChange_now product geo priceData now now2]
      rcases hc : computeChange product geo priceData now with _ | _ | r2
      · rfl
      · rfl
      · by_cases hk : k = (product, geo) <;> simp [hk, stripChangeTime]
    · rw [hw] at ih
      rcases hx : changeWriteOf geo now2 k rest with _ | r2
      · rw [hx] at ih; simp at ih
      · rw [hx] at ih
        simpa using ih

/-- Helper: the run's last streak effect at a key differs across two clock
values only in the `lastUpdated` field of an upserted record. -/
theorem streakWriteOf_strip (geo : String) (k : String × String) (now now2 : Nat) :
    ∀ inputs : List (String × List Obs),
      Option.map (Option.map stripStreakTime) (streakWriteOf geo now2 k inputs) =
        Option.map (Option.map stripStreakTime) (streakWriteOf geo now k inputs) := by
  intro inputs
  induction inputs with
  | nil => rfl
  | cons pr rest ih =>
    obtain ⟨product, priceData⟩ := pr
    rw [streakWriteOf, streakWriteOf]
    rcases hw : streakWriteOf geo now k rest with _ | v
    · rw [hw] at ih
      have hw2 : streakWriteOf geo now2 k rest = none := by
        rcases hx : streakWriteOf geo now2 k rest with _ | v2
        · rfl
        · rw [hx] at ih; simp at ih
      rw [hw2]
      rw [computeChange_now product geo priceData now now2]
      rcases hc : computeChange product geo priceData now with _ | _ | r2
      · rfl
      · rfl
      · by_cases hk : k = (product, geo) <;>
          simp [hk, computeStreak_now product geo priceData now now2, Option.map_map]
        rcases computeStreak product geo priceData now with _ | sr <;>
          simp [stripStreakTime]
    · rw [hw] at ih
      rcases hx : streakWriteOf geo now2 k rest with _ | v2
      · rw [hx] at ih; simp at ih
      · rw [hx] at ih
        simpa using ih

/-- Helper: whether a product is processed does not depend on the clock. -/
theorem isOkChange_now (geo : String) (now now2 : Nat) (pr : String × List Obs) :
    isOkChange geo now2 pr = isOkChange geo now pr := by
  rw [isOkChange, isOkChange, computeChange_now pr.1 geo pr.2 now now2]
  rcases computeChange pr.1 geo pr.2 now with _ | _ | r <;> rfl

/-- Helper: `processedCount` equals the number of region products whose
change computation succeeds. -/
theorem calc_count (geo : String) (now : Nat) :
    ∀ (inputs : List (String × List Obs)) (s : Store),
      (calculateAndStorePriceChanges geo now inputs s).2 =
        inputs.countP (isOkChange geo now) := by
  intro inputs
  induction inputs with
  | nil => intro s; rfl
  | cons pr rest ih =>
    intro s
    obtain ⟨product, priceData⟩ := pr
    have hstep : (calculateAndStorePriceChanges geo now
          ((product, priceData) :: rest) s).2
        = (if (processProduct geo now s product priceData).2 then 1 else 0)
          + (calculateAndStorePriceChanges geo now rest
              (processProduct geo now s product priceData).1).2 := rfl
    rw [hstep, ih, List.countP_cons]
    have hsnd : (processProduct geo now s product priceData).2
        = isOkChange geo now (product, priceData) := by
      rw [processProduct, isOkChange]
      rcases hc : computeChange product geo priceData now with _ | _ | r <;> simp [hc]
    rw [hsnd]
    rcases isOkChange geo now (product, priceData) with _ | _ <;> simp [Nat.add_comm]

/-- Helper: inversion of a successful change computation: the record's
fields in terms of the last two series elements, and the guards that must
have passed. -/
theorem computeChange_ok_inv (p g : String) (pd : List Obs) (now : Nat)
    (r : PriceChangeRec) (h : computeChange p g pd now = .ok r) :
    r = ⟨p, g, (pd.getD (pd.length - 1) obsDefault).VALUE,
         (pd.getD (pd.length - 2) obsDefault).VALUE,
         jsSub (pd.getD (pd.length - 1) obsDefault).VALUE
           (pd.getD (pd.length - 2) obsDefault).VALUE,
         jsMul (jsDiv (jsSub (pd.getD (pd.length - 1) obsDefault).VALUE
             (pd.getD (pd.length - 2) obsDefault).VALUE)
           ((pd.getD (pd.length - 2) obsDefault).VALUE)) (.num 100),
         (pd.getD (pd.length - 1) obsDefault).REF_DATE,
         (pd.getD (pd.length - 2) obsDefault).REF_DATE, now⟩
    ∧ 2 ≤ pd.length
    ∧ jsIsNaN (pd.getD (pd.length - 1) obsDefault).VALUE = false
    ∧ jsIsNaN (pd.getD (pd.length - 2) obsDefault).VALUE = false := by
  rw [computeChange] at h
  by_cases h1 : pd.length < 2
  · rw [if_pos h1] at h
    exact absurd h (by simp)
  · rw [if_neg h1] at h
    by_cases h2 : (jsIsNaN (pd.getD (pd.length - 1) obsDefault).VALUE
        || jsIsNaN (pd.getD (pd.length - 2) obsDefault).VALUE) = true
    · rw [if_pos h2] at h
      exact absurd h (by simp)
    · rw [if_neg h2] at h
      injection h with hrec
      simp only [Bool.or_eq_true, not_or, Bool.not_eq_true] at h2
      exact ⟨hrec.symm, by omega, h2.1, h2.2⟩

/-- C1 (amended): the change computation always stores
`changePercent = (change / previousValue) * 100` under JavaScript
arithmetic, with no zero-divisor branch; when `previousValue = 0` the
stored value is `NaN`, `Infinity` or `-Infinity` — it is never left
absent. -/
theorem changePercent_always_stored (p g : String) (pd : List Obs) (now : Nat)
    (r : PriceChangeRec) (h : computeChange p g pd now = .ok r) :
    r.changePercent = jsMul (jsDiv r.change r.previousPrice) (.num 100)
    ∧ (r.previousPrice = .num 0 →
        r.changePercent = .nan ∨ r.changePercent = .posInf
          ∨ r.changePercent = .negInf) := by
  obtain ⟨hrec, hlen, hcurN, hprevN⟩ := computeChange_ok_inv p g pd now r h
  subst hrec
  constructor
  · rfl
  · intro hp
    have hp2 : (pd.getD (pd.length - 2) obsDefault).VALUE = .num 0 := hp
    rcases hcur : (pd.getD (pd.length - 1) obsDefault).VALUE with q | _ | _ | _
    · rcases lt_trichotomy q 0 with hq | hq | hq
      · right; right
        simp [hp2, hcur, jsSub, jsDiv, jsMul, sub_eq_zero, hq.ne, not_lt_of_lt hq,
          show ¬(0:ℚ) < q - 0 by simpa using not_lt_of_lt hq,
          -List.getD_eq_getElem?_getD]
      · left
        simp [hp2, hcur, jsSub, jsDiv, jsMul, hq, -List.getD_eq_getElem?_getD]
      · right; left
        simp [hp2, hcur, jsSub, jsDiv, jsMul, sub_eq_zero, hq.ne.symm, hq,
          show (0:ℚ) < q - 0 by simpa using hq, -List.getD_eq_getElem?_getD]
    · rw [hcur] at hcurN
      simp [jsIsNaN] at hcurN
    · right; left
      simp [hp2, hcur, jsSub, jsDiv, jsMul, -List.getD_eq_getElem?_getD]
    · right; right
      simp [hp2, hcur, jsSub, jsDiv, jsMul, -List.getD_eq_getElem?_getD]

/-- C1 counterexample: on the series `[(2023-01, 0), (2023-02, 1)]`, whose
previous value is `0`, the stored record has `changePercent = Infinity` —
a present, non-finite numeric value, refuting the claim that
`changePercent` is left absent when `previousValue = 0`. -/
theorem changePercent_zero_prev_counterexample :
    computeChange "Eggs" "Canada"
        [⟨"2023-01", JSVal.num 0⟩, ⟨"2023-02", JSVal.num 1⟩] 0
      = .ok ⟨"Eggs", "Canada", .num 1, .num 0, .num 1, .posInf,
             "2023-02", "2023-01", 0⟩ := by
  norm_num [computeChange, jsSub, jsDiv, jsMul, jsIsNaN, obsDefault]

/-- C1 witness: the amended theorem applied to the concrete zero-previous
series; the stored `changePercent` there is one of `NaN`, `Infinity`,
`-Infinity` (in fact `Infinity`). -/
theorem changePercent_always_stored_witness :
    (⟨"Eggs", "Canada", .num 1, .num 0, .num 1, .posInf,
      "2023-02", "2023-01", 0⟩ : PriceChangeRec).changePercent = .nan
    ∨ (⟨"Eggs", "Canada", .num 1, .num 0, .num 1, .posInf,
        "2023-02", "2023-01", 0⟩ : PriceChangeRec).changePercent = .posInf
    ∨ (⟨"Eggs", "Canada", .num 1, .num 0, .num 1, .posInf,
        "2023-02", "2023-01", 0⟩ : PriceChangeRec).changePercent = .negInf :=
  (changePercent_always_stored "Eggs" "Canada"
      [⟨"2023-01", JSVal.num 0⟩, ⟨"2023-02", JSVal.num 1⟩] 0 _
      (by norm_num [computeChange, jsSub, jsDiv, jsMul, jsIsNaN, obsDefault])).2 rfl

/-- C2 (amended): two consecutive recomputes over an unchanged input series
store, at every `(product, region)` key, change and streak records that are
identical in every field except `lastUpdated`, which carries the wall-clock
value of the run; the processed counts agree, and with an equal clock the
stored records are byte-identical. -/
theorem recompute_idempotent_mod_lastUpdated
    (geo : String) (now now2 : Nat) (inputs : List (String × List Obs))
    (s : Store) (k : String × String) :
    Option.map stripChangeTime
        (((calculateAndStorePriceChanges geo now2 inputs
            (calculateAndStorePriceChanges geo now inputs s).1).1).changes k) =
      Option.map stripChangeTime
        (((calculateAndStorePriceChanges geo now inputs s).1).changes k)
    ∧ Option.map stripStreakTime
        (((calculateAndStorePriceChanges geo now2 inputs
            (calculateAndStorePriceChanges geo now inputs s).1).1).streaks k) =
      Option.map stripStreakTime
        (((calculateAndStorePriceChanges geo now inputs s).1).streaks k)
    ∧ (calculateAndStorePriceChanges geo now2 inputs
          (calculateAndStorePriceChanges geo now inputs s).1).2 =
        (calculateAndStorePriceChanges geo now inputs s).2
    ∧ (now2 = now →
        ((calculateAndStorePriceChanges geo now2 inputs
            (calculateAndStorePriceChanges geo now inputs s).1).1).changes k =
          ((calculateAndStorePriceChanges geo now inputs s).1).changes k
        ∧ ((calculateAndStorePriceChanges geo now2 inputs
            (calculateAndStorePriceChanges geo now inputs s).1).1).streaks k =
          ((calculateAndStorePriceChanges geo now inputs s).1).streaks k) := by
  refine ⟨?_, ?_, ?_, ?_⟩
  · rw [calc_changes_char, calc_changes_char]
    have hstrip := changeWriteOf_strip geo k now now2 inputs
    rcases hW1 : changeWriteOf geo now k inputs with _ | r
    · rw [hW1] at hstrip
      have hW2 : changeWriteOf geo now2 k inputs = none := by
        rcases hx : changeWriteOf geo now2 k inputs with _ | r2
        · rfl
        · rw [hx] at hstrip; simp at hstrip
      rw [hW2]
    · rw [hW1] at hstrip
      rcases hx : changeWriteOf geo now2 k inputs with _ | r2
      · rfl
      · rw [hx] at hstrip
        simpa using hstrip
  · rw [calc_streaks_char, calc_streaks_char]
    have hstrip := streakWriteOf_strip geo k now now2 inputs
    rcases hW1 : streakWriteOf geo now k inputs with _ | v
    · rw [hW1] at hstrip
      have hW2 : streakWriteOf geo now2 k inputs = none := by
        rcases hx : streakWriteOf geo now2 k inputs with _ | v2
        · rfl
        · rw [hx] at hstrip; simp at hstrip
      rw [hW2]
    · rw [hW1] at hstrip
      rcases hx : streakWriteOf geo now2 k inputs with _ | v2
      · rfl
      · rw [hx] at hstrip
        simpa using hstrip
  · rw [calc_count, calc_count]
    exact List.countP_congr (fun pr _ => by simp [isOkChange_now geo now now2 pr])
  · intro h
    subst h
    constructor
    · rw [calc_changes_char, calc_changes_char]
      rcases hW1 : changeWriteOf geo now2 k inputs with _ | r <;> rfl
    · rw [calc_streaks_char, calc_streaks_char]
      rcases hW1 : streakWriteOf geo now2 k inputs with _ | v <;> rfl

/-- C2 counterexample: the same one-product region recomputed at clock `0`
and again at clock `1` stores different change records (the `lastUpdated`
fields differ), refuting byte-identical idempotence as claimed. -/
theorem recompute_not_byte_identical_counterexample :
    ((calculateAndStorePriceChanges "Canada" 1 demoInputs
        (calculateAndStorePriceChanges "Canada" 0 demoInputs emptyStore).1).1).changes
        ("a", "Canada")
      ≠ ((calculateAndStorePriceChanges "Canada" 0 demoInputs emptyStore).1).changes
        ("a", "Canada") := by
  norm_num [calculateAndStorePriceChanges, processProduct, computeChange, computeStreak,
    streakLoop, diffAt, jsSub, jsDiv, jsMul, jsGt, jsLt, jsIsNaN, obsDefault,
    upsertChange, upsertStreak, deleteStreak, emptyStore, goodSeries, demoInputs]

/-- C2 witness: the amended theorem instantiated with equal clocks on a
concrete one-product region: the second run leaves the stored change record
byte-identical. -/
theorem recompute_idempotent_mod_lastUpdated_witness :
    ((calculateAndStorePriceChanges "Canada" 5 demoInputs
        (calculateAndStorePriceChanges "Canada" 5 demoInputs emptyStore).1).1).changes
        ("a", "Canada")
      = ((calculateAndStorePriceChanges "Canada" 5 demoInputs emptyStore).1).changes
        ("a", "Canada") :=
  ((recompute_idempotent_mod_lastUpdated "Canada" 5 5 demoInputs emptyStore
      ("a", "Canada")).2.2.2 rfl).1

/-- C3 counterexample: on Scenario A the streak computation does store a
record (a Decrease streak of length 2), refuting the claim that the result
is NoActiveStreak with no record stored. -/
theorem scenarioA_streak_stored_counterexample :
    computeStreak "p" "Canada" scenarioA 0 ≠ none := by
  norm_num [computeStreak, streakLoop, diffAt, jsSub, jsGt, jsLt, scenarioA]
  simp

/-- C3 (amended): on Scenario A the change computation yields
`change = -0.05` and `changePercent = -50/21 ≈ -2.38` as claimed, but the
streak computation stores a Decrease streak of length 2 covering the last
two observations: the sign reversal only truncates the backward walk, it
does not drop the result to NoActiveStreak. -/
theorem scenarioA_change_and_streak :
    computeChange "p" "Canada" scenarioA 0
      = .ok ⟨"p", "Canada", .num 2.05, .num 2.10, .num (-0.05), .num (-50/21),
             "2023-03", "2023-02", 0⟩
    ∧ |(-50/21 : ℚ) - (-2.38)| < 0.01
    ∧ computeStreak "p" "Canada" scenarioA 0
      = some ⟨"p", "Canada", 2, .decrease,
              [⟨"2023-02", .num 2.10⟩, ⟨"2023-03", .num 2.05⟩], 0⟩ := by
  refine ⟨?_, by norm_num [abs_lt], ?_⟩
  · norm_num [computeChange, jsSub, jsDiv, jsMul, jsIsNaN, obsDefault, scenarioA]
  · norm_num [computeStreak, streakLoop, diffAt, jsSub, jsGt, jsLt, scenarioA]
    simp

/-- C4 (amended): in every enriched record, `yearAgoChange` is present
exactly when `yearAgoPrice` is, but `yearAgoPercent` is present exactly
when `yearAgoPrice` holds a value other than `0`: a year-ago value of `0`
produces a partially populated record. -/
theorem yoy_presence_characterization (item : PriceChangeRec)
    (lookup : String → Option MixedVal) :
    ((enrichYoY item lookup).yearAgoChange.isSome
      = (enrichYoY item lookup).yearAgoPrice.isSome)
    ∧ ((enrichYoY item lookup).yearAgoPercent.isSome ↔
        ∃ v, (enrichYoY item lookup).yearAgoPrice = some v ∧ v ≠ JSVal.num 0) := by
  rw [enrichYoY]
  by_cases hd : item.currentDate = ""
  · simp [hd]
  · rcases hl : lookup (yearAgoDateStr item.currentDate) with _ | mv
    · simp [hd, hl]
    · cases mv with
      | nonNumber => simp [hd, hl]
      | mnum v =>
        by_cases hv : v = .num 0
        · simp [hd, hl, hv]
        · simp [hd, hl, hv]

/-- C4 counterexample: a year-ago lookup returning the numeric value `0`
yields an enriched record with `yearAgoPrice` and `yearAgoChange` present
but `yearAgoPercent` null — the three fields are not all-present or
all-absent together. -/
theorem yoy_partial_at_zero_counterexample :
    (enrichYoY yoyItem (fun _ => some (.mnum (.num 0)))).yearAgoPrice = some (.num 0)
    ∧ (enrichYoY yoyItem (fun _ => some (.mnum (.num 0)))).yearAgoChange
        = some (.num 3)
    ∧ (enrichYoY yoyItem (fun _ => some (.mnum (.num 0)))).yearAgoPercent = none := by
  have hne : ("2024-01" : String) = "" ↔ False := by simp
  norm_num [enrichYoY, yoyItem, jsSub, hne]

/-- C5: for a series of length at least 2, the streak direction is the sign
of the most recent successive difference (positive gives Increase, negative
gives Decrease, anything else gives no streak immediately); the stored
length is `2 + runLen`, i.e. one more than the number of qualifying
backward steps, hence always at least 2, and the stored points are the
contiguous tail of the series from the walk's stopping position. -/
theorem computeStreak_char (p g : String) (pd : List Obs) (now : Nat)
    (h2 : 2 ≤ pd.length) :
    (jsGt (diffAt (pd.map Obs.VALUE) (pd.length - 2)) (.num 0) = true →
      computeStreak p g pd now =
        some ⟨p, g, 2 + runLen (pd.map Obs.VALUE) .increase (pd.length - 2), .increase,
              pd.drop (pd.length - 2 -
                runLen (pd.map Obs.VALUE) .increase (pd.length - 2)), now⟩)
    ∧ (jsLt (diffAt (pd.map Obs.VALUE) (pd.length - 2)) (.num 0) = true →
      computeStreak p g pd now =
        some ⟨p, g, 2 + runLen (pd.map Obs.VALUE) .decrease (pd.length - 2), .decrease,
              pd.drop (pd.length - 2 -
                runLen (pd.map Obs.VALUE) .decrease (pd.length - 2)), now⟩)
    ∧ (jsGt (diffAt (pd.map Obs.VALUE) (pd.length - 2)) (.num 0) = false →
       jsLt (diffAt (pd.map Obs.VALUE) (pd.length - 2)) (.num 0) = false →
      computeStreak p g pd now = none) := by
  have hn1 : pd.length - 1 = (pd.length - 2) + 1 := by omega
  refine ⟨?_, ?_, ?_⟩
  · intro hgt
    rw [computeStreak, hn1, streakLoop]
    simp only [hgt, or_true, if_true, ite_true, streakLoop_locked]
    rcases h0 : runLen (pd.map Obs.VALUE) .increase (pd.length - 2) with _ | r <;>
      simp [h0]
    omega
  · intro hlt
    rw [computeStreak, hn1, streakLoop]
    simp only [jsLtZero_not_gtZero _ hlt, hlt, or_true, if_true, ite_true,
      Bool.false_eq_true, ite_false, streakLoop_locked]
    rcases h0 : runLen (pd.map Obs.VALUE) .decrease (pd.length - 2) with _ | r <;>
      simp [h0]
    omega
  · intro hgt hlt
    rw [computeStreak, hn1, streakLoop]
    simp [hgt, hlt]

/-- C5 witness (Scenario B): on the four-observation all-increasing series
the computation stores an Increase streak of length 4 covering the whole
series. -/
theorem computeStreak_char_witness :
    computeStreak "p" "Canada" scenarioB 0
      = some ⟨"p", "Canada", 4, .increase, scenarioB, 0⟩ := by
  have h := (computeStreak_char "p" "Canada" scenarioB 0 (by decide)).1
    (by norm_num [diffAt, jsSub, jsGt, jsLt, scenarioB])
  rw [h]
  norm_num [runLen, contDiff, diffAt, jsSub, jsGt, jsLt, scenarioB]

/-- C6: with fewer than 2 observations the change computation yields
InsufficientData and the orchestrator's loop body leaves the store
untouched; a successful computation draws current and previous exactly from
the last two elements of the ascending series, stores
`change = current - previous`, and depends on nothing but those last two
elements. -/
theorem computeChange_last_two (p g : String) (pd : List Obs) (now : Nat) (s : Store) :
    (pd.length < 2 →
      computeChange p g pd now = .insufficientData
      ∧ processProduct g now s p pd = (s, false))
    ∧ (∀ r, computeChange p g pd now = .ok r →
        2 ≤ pd.length
        ∧ r.currentPrice = (pd.getD (pd.length - 1) obsDefault).VALUE
        ∧ r.previousPrice = (pd.getD (pd.length - 2) obsDefault).VALUE
        ∧ r.change = jsSub r.currentPrice r.previousPrice
        ∧ r.currentDate = (pd.getD (pd.length - 1) obsDefault).REF_DATE
        ∧ r.previousDate = (pd.getD (pd.length - 2) obsDefault).REF_DATE)
    ∧ (2 ≤ pd.length →
        computeChange p g pd now = computeChange p g (pd.drop (pd.length - 2)) now) := by
  refine ⟨?_, ?_, ?_⟩
  · intro h1
    constructor
    · simp [computeChange, h1]
    · rw [processProduct]
      rw [show computeChange p g pd now = .insufficientData by simp [computeChange, h1]]
  · intro r h
    obtain ⟨hrec, hlen, hcurN, hprevN⟩ := computeChange_ok_inv p g pd now r h
    subst hrec
    exact ⟨hlen, rfl, rfl, rfl, rfl, rfl⟩
  · intro h2
    have hlen : (pd.drop (pd.length - 2)).length = 2 := by
      simp only [List.length_drop]
      omega
    have hget1 : (pd.drop (pd.length - 2)).getD
        ((pd.drop (pd.length - 2)).length - 1) obsDefault
        = pd.getD (pd.length - 1) obsDefault := by
      rw [hlen]
      simp only [List.getD_eq_getElem?_getD, List.getElem?_drop]
      have e : pd.length - 2 + (2 - 1) = pd.length - 1 := by omega
      rw [e]
    have hget0 : (pd.drop (pd.length - 2)).getD
        ((pd.drop (pd.length - 2)).length - 2) obsDefault
        = pd.getD (pd.length - 2) obsDefault := by
      rw [hlen]
      simp only [List.getD_eq_getElem?_getD, List.getElem?_drop]
      have e : pd.length - 2 + (2 - 2) = pd.length - 2 := by omega
      rw [e]
    rw [computeChange, computeChange, hget1, hget0, hlen]
    rw [if_neg (show ¬pd.length < 2 by omega),
      if_neg (show ¬(2:Nat) < 2 by decide)]

/-- C6 witness: the theorem applied to a one-point series (InsufficientData)
and to a two-point series (current and previous are the last two values,
change is their difference). -/
theorem computeChange_last_two_witness :
    computeChange "p" "Canada" badSeries 0 = .insufficientData
    ∧ ∀ r, computeChange "p" "Canada" goodSeries 0 = .ok r →
        r.currentPrice = JSVal.num 2 ∧ r.previousPrice = JSVal.num 1
        ∧ r.change = jsSub (JSVal.num 2) (JSVal.num 1) := by
  constructor
  · exact ((computeChange_last_two "p" "Canada" badSeries 0 emptyStore).1 (by decide)).1
  · intro r h
    have hfacts := (computeChange_last_two "p" "Canada" goodSeries 0 emptyStore).2.1 r h
    refine ⟨?_, ?_, ?_⟩
    · rw [hfacts.2.1]; rfl
    · rw [hfacts.2.2.1]; rfl
    · rw [hfacts.2.2.2.1, hfacts.2.1, hfacts.2.2.1]; rfl

/-- C7: the year-over-year lookup targets the period exactly 12 calendar
months earlier — the same month of the previous year — for every month,
with correct rollover across the year boundary, and on the rendered period
strings 2024-01 maps to 2023-01 and 2024-12 to 2023-12. -/
theorem yearAgo_exact_twelve_months :
    (∀ y m : Nat, 1 ≤ y → 1 ≤ m → m ≤ 12 → yearAgoYM y m = (y - 1, m))
    ∧ yearAgoDateStr "2024-01" = "2023-01"
    ∧ yearAgoDateStr "2024-12" = "2023-12" := by
  refine ⟨?_, by decide, by decide⟩
  intro y m hy hm1 hm2
  simp only [yearAgoYM, Prod.mk.injEq]
  constructor <;> omega

/-- C7 witness: the month arithmetic applied to January 2024 yields January
2023. -/
theorem yearAgo_exact_twelve_months_witness :
    yearAgoYM 2024 1 = (2023, 1) :=
  yearAgo_exact_twelve_months.1 2024 1 (by decide) (by decide) (by decide)

/-- C8: the per-region recompute returns `processedCount` equal to the
number of products whose change computation succeeds, and a product whose
computation yields InsufficientData or InvalidValue leaves the store
entirely untouched (no record written, no record deleted) without aborting
the run. -/
theorem recomputeRegion_skip_and_count (geo : String) (now : Nat)
    (inputs : List (String × List Obs)) (s : Store) (p : String) (pd : List Obs) :
    ((calculateAndStorePriceChanges geo now inputs s).2
      = inputs.countP (isOkChange geo now))
    ∧ ((computeChange p geo pd now = .insufficientData
        ∨ computeChange p geo pd now = .invalidValue) →
        processProduct geo now s p pd = (s, false)) := by
  refine ⟨calc_count geo now inputs s, ?_⟩
  intro h
  rcases h with h | h <;> rw [processProduct, h]

/-- C8 witness (Scenario E): a region of 100 products of which 3 have
insufficient data returns `processedCount = 97`, and a skipped product
leaves the store unchanged. -/
theorem recomputeRegion_skip_and_count_witness :
    (calculateAndStorePriceChanges "Canada" 0 scenarioEInputs emptyStore).2 = 97
    ∧ processProduct "Canada" 0 emptyStore "q0" badSeries = (emptyStore, false) := by
  constructor
  · rw [(recomputeRegion_skip_and_count "Canada" 0 scenarioEInputs emptyStore
      "q0" badSeries).1]
    decide
  · exact (recomputeRegion_skip_and_count "Canada" 0 [] emptyStore "q0" badSeries).2
      (Or.inl (by decide))

/-- C9: the calculate-all loop produces exactly one result entry per known
region in order; a region whose recompute fails is reported with
`success = false`, its error message and a count of 0, other regions are
unaffected, and `totalProcessed` is the sum of the processed counts of the
successful regions. -/
theorem calculateAll_characterization (run : String → Except String Nat)
    (geoValues : List String) :
    calculateAll run geoValues
      = ((geoValues.map (fun geo =>
            match run geo with
            | .ok n => n
            | .error _ => 0)).sum,
         geoValues.map (fun geo =>
           match run geo with
           | .ok n => RegionResult.mk geo n true none
           | .error e => RegionResult.mk geo 0 false (some e)))
    ∧ (calculateAll run geoValues).1 =
        (((calculateAll run geoValues).2.filter (fun r => r.success)).map
          (fun r => r.processedCount)).sum := by
  constructor
  · induction geoValues with
    | nil => rfl
    | cons geo rest ih =>
      rw [calculateAll]
      rcases hr : run geo with n | e <;> simp [hr, ih]
  · induction geoValues with
    | nil => rfl
    | cons geo rest ih =>
      rw [calculateAll]
      rcases hr : run geo with n | e <;> simp [hr, List.filter_cons, ih]

/-- C10: the backward streak walk is total by construction and treats any
diff that is neither strictly positive nor strictly negative — a zero just
like a `NaN` arising from a non-numeric value — as a hard stop returning
the state unchanged; `NaN` absorbs subtraction on either side; and a
non-numeric value anywhere before the last two positions never makes the
change computation report InvalidValue. -/
theorem streak_nan_step (vals : List JSVal) (i : Nat) (st : StreakState) (x : JSVal)
    (p g : String) (pd : List Obs) (now : Nat) :
    (jsSub JSVal.nan x = JSVal.nan ∧ jsSub x JSVal.nan = JSVal.nan)
    ∧ (diffAt vals i = JSVal.nan → streakLoop vals (i + 1) st = st)
    ∧ (diffAt vals i = JSVal.num 0 → streakLoop vals (i + 1) st = st)
    ∧ (2 ≤ pd.length →
        jsIsNaN (pd.getD (pd.length - 1) obsDefault).VALUE = false →
        jsIsNaN (pd.getD (pd.length - 2) obsDefault).VALUE = false →
        computeChange p g pd now ≠ .invalidValue) := by
  refine ⟨⟨?_, ?_⟩, ?_, ?_, ?_⟩
  · cases x <;> rfl
  · cases x <;> rfl
  · intro h
    rw [streakLoop]
    simp [h, jsGt, jsLt]
  · intro h
    rw [streakLoop]
    simp [h, jsGt, jsLt]
  · intro h2 hc hp
    rw [computeChange]
    rw [if_neg (by omega)]
    rw [if_neg (by rw [hc, hp]; decide)]
    simp

/-- C10 witness: on a series whose oldest value is non-numeric the walk
stops at the `NaN` diff with the state unchanged, and the change
computation still succeeds (it is not InvalidValue) because only the last
two values are inspected. -/
theorem streak_nan_step_witness :
    streakLoop [JSVal.num 1, JSVal.nan, JSVal.num 2] 2 ⟨1, none, 2⟩ = ⟨1, none, 2⟩
    ∧ computeChange "p" "Canada"
        [⟨"2023-01", JSVal.nan⟩, ⟨"2023-02", JSVal.num 1⟩, ⟨"2023-03", JSVal.num 2⟩] 0
      ≠ .invalidValue := by
  constructor
  · exact (streak_nan_step [JSVal.num 1, JSVal.nan, JSVal.num 2] 1 ⟨1, none, 2⟩
      (JSVal.num 5) "p" "Canada" [] 0).2.1 (by decide)
  · exact (streak_nan_step [] 0 ⟨1, none, 0⟩ (JSVal.num 5) "p" "Canada"
      [⟨"2023-01", JSVal.nan⟩, ⟨"2023-02", JSVal.num 1⟩, ⟨"2023-03", JSVal.num 2⟩] 0).2.2.2
      (by decide) (by decide) (by decide)
